import Mathlib

/-!
# label-operator: the Pod reconciler

A shallow embedding of `internal/controller/pod_controller.go`.

* Go's `map[string]string` is `GoMap`: either the nil map or a list of entries.
* The embedded `client.Client` is a pair of state-passing functions over an
  arbitrary store state; `apierrors` is a pair of classifiers over an arbitrary
  error type.
* `Reconcile` returns the `ctrl.Result`, the Go `error` (`none` is `nil`), the
  trace of collaborator calls and log lines it produced, and the store state it
  leaves behind.
-/

namespace LabelOperator

/-! ## Go maps -/

/-- A Go `map[string]string`. `nil` is the nil map; `entries l` is an allocated
map, read through the first entry that carries the key. -/
inductive GoMap where
  | nil : GoMap
  | entries (l : List (String × String)) : GoMap
deriving DecidableEq, Repr

/-- The first value stored under `k` in a list of entries. -/
def findEntry (k : String) : List (String × String) → Option String
  | [] => none
  | (k', v) :: rest => if k' = k then some v else findEntry k rest

/-- The entries left once every entry under `k` is dropped. -/
def dropKey (k : String) : List (String × String) → List (String × String)
  | [] => []
  | (k', v) :: rest => if k' = k then dropKey k rest else (k', v) :: dropKey k rest

/-- The two-result read `v, ok := m[k]`: `none` when the key is absent. -/
def GoMap.lookup (m : GoMap) (k : String) : Option String :=
  match m with
  | .nil => none
  | .entries l => findEntry k l

/-- The one-result read `m[k]`: the zero value `""` when the key is absent,
also on the nil map. -/
def GoMap.index (m : GoMap) (k : String) : String :=
  match m.lookup k with
  | some v => v
  | none => ""

/-- The builtin `make(map[string]string)`: allocated and empty. -/
def GoMap.make : List (String × String) := []

/-- The assignment `m[k] = v` on an allocated map. -/
def assignEntry (l : List (String × String)) (k v : String) : List (String × String) :=
  (k, v) :: dropKey k l

/-- The builtin `delete(m, k)`: a no-op on the nil map. -/
def GoMap.delete (m : GoMap) (k : String) : GoMap :=
  match m with
  | .nil => .nil
  | .entries l => .entries (dropKey k l)

/-! ## Kubernetes objects -/

/-- The request key `types.NamespacedName`. -/
structure NamespacedName where
  Namespace : String
  Name : String
deriving DecidableEq, Repr

/-- The part of `corev1.Pod` the controller reads or writes: the object
metadata. `ResourceVersion` is the optimistic-concurrency token. -/
structure Pod where
  Namespace : String
  Name : String
  ResourceVersion : String
  Annotations : GoMap
  Labels : GoMap
deriving DecidableEq, Repr

/-- The key under which a pod is stored. -/
def Pod.key (p : Pod) : NamespacedName := ⟨p.Namespace, p.Name⟩

/-- The value `ctrl.Result`; `RequeueAfter` is a `time.Duration`. -/
structure Result where
  Requeue : Bool := false
  RequeueAfter : Int := 0
deriving DecidableEq, Repr

/-- The classifiers `apierrors.IsNotFound` and `apierrors.IsConflict` over the
error type of the client. -/
structure APIErrors (ε : Type) where
  IsNotFound : ε → Bool
  IsConflict : ε → Bool

/-- The embedded `client.Client`: `Get` and `Update` against a store in state `σ`.
`Update` answers `none` for a nil error. -/
structure Client (σ ε : Type) where
  Get : NamespacedName → σ → Except ε Pod × σ
  Update : Pod → σ → Option ε × σ

/-- What one reconciliation does to the outside, in order. -/
inductive Event (ε : Type) where
  | get (req : NamespacedName) (res : Except ε Pod)
  | update (pod : Pod) (res : Option ε)
  | logInfo (msg : String)
  | logError (err : ε) (msg : String)

/-- The return values of `Reconcile` with the effects it had. -/
structure Outcome (σ ε : Type) where
  result : Result
  err : Option ε
  trace : List (Event ε)
  state : σ

/-- The pods submitted to `Update`, in order. -/
def updatesOf {ε : Type} : List (Event ε) → List Pod
  | [] => []
  | .update p _ :: rest => p :: updatesOf rest
  | _ :: rest => updatesOf rest

/-- The last snapshot in a trace that was read by a successful `Get` or
submitted to `Update`, given the one found so far. -/
def lastSnapshotFrom {ε : Type} : Option Pod → List (Event ε) → Option Pod
  | acc, [] => acc
  | _, .get _ (.ok p) :: rest => lastSnapshotFrom (some p) rest
  | _, .update p _ :: rest => lastSnapshotFrom (some p) rest
  | acc, _ :: rest => lastSnapshotFrom acc rest

/-- The pods submitted to `Update` by a reconciliation. -/
def Outcome.updates {σ ε : Type} (o : Outcome σ ε) : List Pod := updatesOf o.trace

/-- The snapshot a reconciliation last read or wrote, if any. -/
def Outcome.lastSnapshot {σ ε : Type} (o : Outcome σ ε) : Option Pod :=
  lastSnapshotFrom none o.trace

/-! ## The controller -/

def addPodNameLabelAnnotation : String := "liatr.io/add-pod-name-label"

def podNameLabel : String := "liatr.io/pod-name"

/-- Line 78: `pod.Annotations[addPodNameLabelAnnotation] == "true"`. -/
def labelShouldBePresent (pod : Pod) : Bool :=
  decide (pod.Annotations.index addPodNameLabelAnnotation = "true")

/-- Line 79: `pod.Labels[podNameLabel] == pod.Name`. -/
def labelIsPresent (pod : Pod) : Bool :=
  decide (pod.Labels.index podNameLabel = pod.Name)

/-- Lines 90-93: allocate the label map when it is nil, then assign the label. -/
def addLabel (pod : Pod) : Pod :=
  let allocated : List (String × String) :=
    match pod.Labels with
    | .nil => GoMap.make
    | .entries l => l
  { pod with Labels := .entries (assignEntry allocated podNameLabel pod.Name) }

/-- Line 97: `delete(pod.Labels, podNameLabel)`. -/
def removeLabel (pod : Pod) : Pod :=
  { pod with Labels := pod.Labels.delete podNameLabel }

/-- Lines 88-99, step 1: the pod to submit and the line logged. -/
def applyLabel (pod : Pod) : Pod × String :=
  if labelShouldBePresent pod then
    (addLabel pod, "adding label")
  else
    (removeLabel pod, "removing label")

/-- The method `(*PodReconciler).Reconcile`. -/
def Reconcile {σ ε : Type} (E : APIErrors ε) (r : Client σ ε)
    (req : NamespacedName) (s : σ) : Outcome σ ε :=
  match r.Get req s with
  | (.error err, s1) =>
    if E.IsNotFound err then
      ⟨{}, none, [.get req (.error err)], s1⟩
    else
      ⟨{}, some err, [.get req (.error err), .logError err "unable to fetch Pod"], s1⟩
  | (.ok pod, s1) =>
    if labelShouldBePresent pod = labelIsPresent pod then
      ⟨{}, none, [.get req (.ok pod), .logInfo "no update required"], s1⟩
    else
      let step := applyLabel pod
      match r.Update step.1 s1 with
      | (some err, s2) =>
        if E.IsConflict err then
          ⟨{ Requeue := true }, none,
            [.get req (.ok pod), .logInfo step.2, .update step.1 (some err)], s2⟩
        else if E.IsNotFound err then
          ⟨{ Requeue := true }, none,
            [.get req (.ok pod), .logInfo step.2, .update step.1 (some err)], s2⟩
        else
          ⟨{}, some err,
            [.get req (.ok pod), .logInfo step.2, .update step.1 (some err),
              .logError err "unable to update Pod"], s2⟩
      | (none, s2) =>
        ⟨{}, none, [.get req (.ok pod), .logInfo step.2, .update step.1 none], s2⟩

/-- The driving loop delivering the same request `n` times in a row: the pods
submitted to `Update` over all rounds, and the final store state. -/
def reconcileN {σ ε : Type} (E : APIErrors ε) (r : Client σ ε)
    (req : NamespacedName) : Nat → σ → List Pod × σ
  | 0, s => ([], s)
  | n + 1, s =>
    let o := Reconcile E r req s
    let rest := reconcileN E r req n o.state
    (o.updates ++ rest.1, rest.2)

/-! ## A store for concrete runs -/

/-- The reasons of `metav1.StatusReason` used below. -/
inductive StatusReason where
  | NotFound
  | Conflict
  | Timeout
  | InternalError
deriving DecidableEq, Repr

/-- An API status error. -/
structure StatusError where
  reason : StatusReason
  message : String
deriving DecidableEq, Repr

/-- Classification of a status error by its reason. -/
def statusErrors : APIErrors StatusError where
  IsNotFound := fun e => decide (e.reason = .NotFound)
  IsConflict := fun e => decide (e.reason = .Conflict)

/-- The first stored pod with the given key. -/
def findPod (key : NamespacedName) : List Pod → Option Pod
  | [] => none
  | p :: rest => if p.key = key then some p else findPod key rest

/-- Every stored pod with the key of `p` replaced by `p`. -/
def replacePod (p : Pod) : List Pod → List Pod
  | [] => []
  | q :: rest => if q.key = p.key then p :: replacePod p rest else q :: replacePod p rest

/-- A store that nothing else mutates: `Get` reads the stored pod, `Update`
replaces the stored pod by the submitted one. -/
def storeClient : Client (List Pod) StatusError where
  Get := fun key st =>
    match findPod key st with
    | some p => (.ok p, st)
    | none => (.error ⟨.NotFound, "pod not found"⟩, st)
  Update := fun p st =>
    match findPod p.key st with
    | some _ => (none, replacePod p st)
    | none => (some ⟨.NotFound, "pod not found"⟩, st)

/-- A client that reads one fixed pod and answers every `Update` the same way. -/
def fixedClient (pod : Pod) (answer : Option StatusError) : Client Unit StatusError where
  Get := fun _ st => (.ok pod, st)
  Update := fun _ st => (answer, st)

/-- Scenario A: the annotation asks for the label, no label map yet. -/
def podScenarioA : Pod :=
  ⟨"default", "web-1", "41", .entries [("liatr.io/add-pod-name-label", "true")], .nil⟩

/-- Scenario B: the annotation is `"false"`, the label is there. -/
def podScenarioB : Pod :=
  ⟨"default", "web-1", "42", .entries [("liatr.io/add-pod-name-label", "false")],
    .entries [("app", "web"), ("liatr.io/pod-name", "web-1")]⟩

/-- Scenario C: the annotation asks for the label and the label is there. -/
def podScenarioC : Pod :=
  ⟨"default", "web-1", "43", .entries [("liatr.io/add-pod-name-label", "true")],
    .entries [("liatr.io/pod-name", "web-1")]⟩

/-- The request for the pod of the scenarios. -/
def reqWeb : NamespacedName := ⟨"default", "web-1"⟩

/-- A store in which `Update` replaces the stored object and nothing else
mutates it: `Get` leaves the state alone and returns the object stored under the
requested key, and `Update` of a stored key succeeds and stores the submitted
object. -/
structure ReplaceStore {σ ε : Type} (r : Client σ ε) : Prop where
  get_state : ∀ req s, (r.Get req s).2 = s
  get_key : ∀ req s p, (r.Get req s).1 = .ok p → p.key = req
  update_ok : ∀ p s q, (r.Get p.key s).1 = .ok q → (r.Update p s).1 = none
  update_get : ∀ p s q, (r.Get p.key s).1 = .ok q →
    (r.Get p.key (r.Update p s).2).1 = .ok p

/-! ## Go map laws -/

theorem findEntry_dropKey_self (k : String) (l : List (String × String)) :
    findEntry k (dropKey k l) = none := by
  induction l with
  | nil => rfl
  | cons e rest ih =>
    obtain ⟨k', v⟩ := e
    by_cases h : k' = k
    · simp [dropKey, h, ih]
    · simp [dropKey, findEntry, h, ih]

theorem findEntry_dropKey_ne (k k' : String) (l : List (String × String)) (h : k' ≠ k) :
    findEntry k' (dropKey k l) = findEntry k' l := by
  induction l with
  | nil => rfl
  | cons e rest ih =>
    obtain ⟨k0, v⟩ := e
    by_cases h0 : k0 = k
    · have h1 : ¬ k0 = k' := fun h2 => h (h2.symm.trans h0)
      rw [dropKey, if_pos h0, findEntry, if_neg h1, ih]
    · by_cases h1 : k0 = k'
      · rw [dropKey, if_neg h0, findEntry, if_pos h1, findEntry, if_pos h1]
      · rw [dropKey, if_neg h0, findEntry, if_neg h1, findEntry, if_neg h1, ih]

theorem lookup_delete_self (m : GoMap) (k : String) : (m.delete k).lookup k = none := by
  cases m with
  | nil => rfl
  | entries l => exact findEntry_dropKey_self k l

theorem lookup_delete_ne (m : GoMap) (k k' : String) (h : k' ≠ k) :
    (m.delete k).lookup k' = m.lookup k' := by
  cases m with
  | nil => rfl
  | entries l => exact findEntry_dropKey_ne k k' l h

theorem lookup_assign_self (l : List (String × String)) (k v : String) :
    (GoMap.entries (assignEntry l k v)).lookup k = some v := by
  simp [GoMap.lookup, assignEntry, findEntry]

theorem lookup_assign_ne (l : List (String × String)) (k k' v : String) (h : k' ≠ k) :
    (GoMap.entries (assignEntry l k v)).lookup k' = (GoMap.entries l).lookup k' := by
  have h1 : ¬ k = k' := fun h2 => h h2.symm
  simp [GoMap.lookup, assignEntry, findEntry, h1, findEntry_dropKey_ne k k' l h]

/-! ## The two mutations -/

theorem labelIsPresent_addLabel (pod : Pod) : labelIsPresent (addLabel pod) = true := by
  simp [labelIsPresent, addLabel, GoMap.index, lookup_assign_self]

theorem labelShouldBePresent_addLabel (pod : Pod) :
    labelShouldBePresent (addLabel pod) = labelShouldBePresent pod := rfl

theorem labelShouldBePresent_removeLabel (pod : Pod) :
    labelShouldBePresent (removeLabel pod) = labelShouldBePresent pod := rfl

theorem labelIsPresent_removeLabel (pod : Pod) (h : pod.Name ≠ "") :
    labelIsPresent (removeLabel pod) = false := by
  have h1 : ¬ "" = pod.Name := fun h2 => h h2.symm
  simp [labelIsPresent, removeLabel, GoMap.index, lookup_delete_self, h1]

theorem labelShouldBePresent_applyLabel (pod : Pod) :
    labelShouldBePresent (applyLabel pod).1 = labelShouldBePresent pod := by
  unfold applyLabel
  split <;> rfl

theorem labelIsPresent_applyLabel (pod : Pod)
    (h : pod.Name ≠ "" ∨ labelShouldBePresent pod = true) :
    labelIsPresent (applyLabel pod).1 = labelShouldBePresent pod := by
  unfold applyLabel
  by_cases hd : labelShouldBePresent pod = true
  · simp [hd, labelIsPresent_addLabel]
  · have hn : pod.Name ≠ "" := h.resolve_right hd
    simp [hd, labelIsPresent_removeLabel pod hn]

theorem applyLabel_name (pod : Pod) : (applyLabel pod).1.Name = pod.Name := by
  unfold applyLabel
  split <;> rfl

theorem applyLabel_key (pod : Pod) : (applyLabel pod).1.key = pod.key := by
  unfold applyLabel
  split <;> rfl

/-! ## Reconcile, branch by branch -/

section Branches

variable {σ ε : Type} (E : APIErrors ε) (r : Client σ ε) (req : NamespacedName) (s : σ)

theorem Reconcile_get_notFound (err : ε) (s1 : σ) (hget : r.Get req s = (.error err, s1))
    (hnf : E.IsNotFound err = true) :
    Reconcile E r req s = ⟨{}, none, [.get req (.error err)], s1⟩ := by
  simp [Reconcile, hget, hnf]

theorem Reconcile_get_failed (err : ε) (s1 : σ) (hget : r.Get req s = (.error err, s1))
    (hnf : E.IsNotFound err = false) :
    Reconcile E r req s =
      ⟨{}, some err, [.get req (.error err), .logError err "unable to fetch Pod"], s1⟩ := by
  simp [Reconcile, hget, hnf]

theorem Reconcile_same (pod : Pod) (s1 : σ) (hget : r.Get req s = (.ok pod, s1))
    (heq : labelShouldBePresent pod = labelIsPresent pod) :
    Reconcile E r req s =
      ⟨{}, none, [.get req (.ok pod), .logInfo "no update required"], s1⟩ := by
  simp [Reconcile, hget, heq]

theorem Reconcile_update_ok (pod : Pod) (s1 s2 : σ) (hget : r.Get req s = (.ok pod, s1))
    (hne : labelShouldBePresent pod ≠ labelIsPresent pod)
    (hupd : r.Update (applyLabel pod).1 s1 = (none, s2)) :
    Reconcile E r req s =
      ⟨{}, none, [.get req (.ok pod), .logInfo (applyLabel pod).2,
        .update (applyLabel pod).1 none], s2⟩ := by
  simp [Reconcile, hget, hne, hupd]

theorem Reconcile_update_conflict (pod : Pod) (s1 s2 : σ) (err : ε)
    (hget : r.Get req s = (.ok pod, s1))
    (hne : labelShouldBePresent pod ≠ labelIsPresent pod)
    (hupd : r.Update (applyLabel pod).1 s1 = (some err, s2))
    (hc : E.IsConflict err = true) :
    Reconcile E r req s =
      ⟨{ Requeue := true }, none, [.get req (.ok pod), .logInfo (applyLabel pod).2,
        .update (applyLabel pod).1 (some err)], s2⟩ := by
  simp [Reconcile, hget, hne, hupd, hc]

theorem Reconcile_update_notFound (pod : Pod) (s1 s2 : σ) (err : ε)
    (hget : r.Get req s = (.ok pod, s1))
    (hne : labelShouldBePresent pod ≠ labelIsPresent pod)
    (hupd : r.Update (applyLabel pod).1 s1 = (some err, s2))
    (hnf : E.IsNotFound err = true) :
    Reconcile E r req s =
      ⟨{ Requeue := true }, none, [.get req (.ok pod), .logInfo (applyLabel pod).2,
        .update (applyLabel pod).1 (some err)], s2⟩ := by
  by_cases hc : E.IsConflict err = true
  · simp [Reconcile, hget, hne, hupd, hc]
  · simp [Reconcile, hget, hne, hupd, hc, hnf]

theorem Reconcile_update_failed (pod : Pod) (s1 s2 : σ) (err : ε)
    (hget : r.Get req s = (.ok pod, s1))
    (hne : labelShouldBePresent pod ≠ labelIsPresent pod)
    (hupd : r.Update (applyLabel pod).1 s1 = (some err, s2))
    (hc : E.IsConflict err = false) (hnf : E.IsNotFound err = false) :
    Reconcile E r req s =
      ⟨{}, some err, [.get req (.ok pod), .logInfo (applyLabel pod).2,
        .update (applyLabel pod).1 (some err), .logError err "unable to update Pod"], s2⟩ := by
  simp [Reconcile, hget, hne, hupd, hc, hnf]

theorem Reconcile_updates_of_ne (pod : Pod) (s1 : σ) (hget : r.Get req s = (.ok pod, s1))
    (hne : labelShouldBePresent pod ≠ labelIsPresent pod) :
    (Reconcile E r req s).updates = [(applyLabel pod).1] := by
  rcases hupd : r.Update (applyLabel pod).1 s1 with ⟨ans, s2⟩
  cases ans with
  | none => rw [Reconcile_update_ok E r req s pod s1 s2 hget hne hupd]; rfl
  | some err =>
    by_cases hc : E.IsConflict err = true
    · rw [Reconcile_update_conflict E r req s pod s1 s2 err hget hne hupd hc]; rfl
    · by_cases hnf : E.IsNotFound err = true
      · rw [Reconcile_update_notFound E r req s pod s1 s2 err hget hne hupd hnf]; rfl
      · have hc' : E.IsConflict err = false := by simpa using hc
        have hnf' : E.IsNotFound err = false := by simpa using hnf
        rw [Reconcile_update_failed E r req s pod s1 s2 err hget hne hupd hc' hnf']; rfl

end Branches

/-! ## Replay against a replace store -/

section Replay

variable {σ ε : Type} (E : APIErrors ε) (r : Client σ ε) (req : NamespacedName)

theorem applyLabel_converged (pod : Pod)
    (h : pod.Name ≠ "" ∨ labelShouldBePresent pod = true) :
    labelShouldBePresent (applyLabel pod).1 = labelIsPresent (applyLabel pod).1 := by
  rw [labelShouldBePresent_applyLabel, labelIsPresent_applyLabel pod h]

theorem Reconcile_state_of_no_update (R : ReplaceStore r) (s : σ)
    (h : (Reconcile E r req s).updates = []) : (Reconcile E r req s).state = s := by
  have hs := R.get_state req s
  rcases hget : r.Get req s with ⟨res, s1⟩
  rw [hget] at hs
  simp only at hs
  subst hs
  cases res with
  | error err =>
    by_cases hnf : E.IsNotFound err = true
    · rw [Reconcile_get_notFound E r req _ err _ hget hnf]
    · have hnf' : E.IsNotFound err = false := by simpa using hnf
      rw [Reconcile_get_failed E r req _ err _ hget hnf']
  | ok pod =>
    by_cases heq : labelShouldBePresent pod = labelIsPresent pod
    · rw [Reconcile_same E r req _ pod _ hget heq]
    · rw [Reconcile_updates_of_ne E r req _ pod _ hget heq] at h
      cases h

theorem reconcileN_of_fixed (s : σ) (hu : (Reconcile E r req s).updates = [])
    (hs : (Reconcile E r req s).state = s) (n : Nat) :
    reconcileN E r req n s = ([], s) := by
  induction n with
  | zero => rfl
  | succ n ih => simp [reconcileN, hu, hs, ih]

theorem Reconcile_after_update (R : ReplaceStore r) (s : σ) (pod : Pod)
    (s1 : σ) (hget : r.Get req s = (.ok pod, s1))
    (hne : labelShouldBePresent pod ≠ labelIsPresent pod)
    (hname : pod.Name ≠ "" ∨ labelShouldBePresent pod = true) :
    (Reconcile E r req (Reconcile E r req s).state).updates = [] := by
  have hs := R.get_state req s
  rw [hget] at hs
  simp only at hs
  subst hs
  have hkey : pod.key = req := R.get_key req _ pod (by rw [hget])
  have hpk : (applyLabel pod).1.key = req := by rw [applyLabel_key, hkey]
  have hg : (r.Get (applyLabel pod).1.key s1).1 = .ok pod := by rw [hpk, hget]
  have hok := R.update_ok _ _ _ hg
  have hgu := R.update_get _ _ _ hg
  rw [hpk] at hgu
  rcases hupd : r.Update (applyLabel pod).1 s1 with ⟨ans, s2⟩
  rw [hupd] at hok hgu
  simp only at hok hgu
  subst hok
  rw [Reconcile_update_ok E r req _ pod _ s2 hget hne hupd]
  show (Reconcile E r req s2).updates = []
  rcases hget2 : r.Get req s2 with ⟨res2, s3⟩
  rw [hget2] at hgu
  simp only at hgu
  subst hgu
  rw [Reconcile_same E r req s2 _ s3 hget2 (applyLabel_converged pod hname)]
  rfl

theorem reconcileN_length_le_one (R : ReplaceStore r) (n : Nat) (s : σ)
    (hname : ∀ pod, (r.Get req s).1 = .ok pod →
      labelShouldBePresent pod = labelIsPresent pod ∨ pod.Name ≠ "" ∨
        labelShouldBePresent pod = true) :
    (reconcileN E r req n s).1.length ≤ 1 := by
  cases n with
  | zero => simp [reconcileN]
  | succ n =>
    rcases hget : r.Get req s with ⟨res, s1⟩
    by_cases hu : (Reconcile E r req s).updates = []
    · have hs := Reconcile_state_of_no_update E r req R s hu
      simp [reconcileN, hu, hs, reconcileN_of_fixed E r req s hu hs n]
    · cases res with
      | error err =>
        exfalso
        apply hu
        by_cases hnf : E.IsNotFound err = true
        · rw [Reconcile_get_notFound E r req _ err _ hget hnf]; rfl
        · have hnf' : E.IsNotFound err = false := by simpa using hnf
          rw [Reconcile_get_failed E r req _ err _ hget hnf']; rfl
      | ok pod =>
        by_cases heq : labelShouldBePresent pod = labelIsPresent pod
        · exfalso
          apply hu
          rw [Reconcile_same E r req _ pod _ hget heq]; rfl
        · have hg : pod.Name ≠ "" ∨ labelShouldBePresent pod = true :=
            (hname pod (by rw [hget])).resolve_left heq
          have h1 := Reconcile_updates_of_ne E r req s pod s1 hget heq
          have h2 := Reconcile_after_update E r req R s pod s1 hget heq hg
          have h3 := Reconcile_state_of_no_update E r req R _ h2
          simp [reconcileN, h1, reconcileN_of_fixed E r req _ h2 h3 n]

theorem findPod_key (key : NamespacedName) (st : List Pod) (p : Pod)
    (h : findPod key st = some p) : p.key = key := by
  induction st with
  | nil => cases h
  | cons q rest ih =>
    by_cases hq : q.key = key
    · rw [findPod, if_pos hq] at h
      cases h
      exact hq
    · rw [findPod, if_neg hq] at h
      exact ih h

theorem findPod_replacePod (p q : Pod) (st : List Pod) (h : findPod p.key st = some q) :
    findPod p.key (replacePod p st) = some p := by
  induction st with
  | nil => cases h
  | cons q0 rest ih =>
    by_cases hq : q0.key = p.key
    · rw [replacePod, if_pos hq, findPod, if_pos rfl]
    · rw [findPod, if_neg hq] at h
      rw [replacePod, if_neg hq, findPod, if_neg hq]
      exact ih h

theorem storeClient_replaceStore : ReplaceStore storeClient where
  get_state := by
    intro req st
    show (match findPod req st with
      | some p => ((Except.ok p : Except StatusError Pod), st)
      | none => (.error ⟨.NotFound, "pod not found"⟩, st)).2 = st
    cases findPod req st <;> rfl
  get_key := by
    intro req st p h
    have h' : (match findPod req st with
      | some p => ((Except.ok p : Except StatusError Pod), st)
      | none => (.error ⟨.NotFound, "pod not found"⟩, st)).1 = .ok p := h
    cases hf : findPod req st with
    | none => rw [hf] at h'; cases h'
    | some q =>
      rw [hf] at h'
      cases h'
      exact findPod_key req st _ hf
  update_ok := by
    intro p st q h
    have h' : (match findPod p.key st with
      | some p => ((Except.ok p : Except StatusError Pod), st)
      | none => (.error ⟨.NotFound, "pod not found"⟩, st)).1 = .ok q := h
    show (match findPod p.key st with
      | some _ => ((none : Option StatusError), replacePod p st)
      | none => (some ⟨.NotFound, "pod not found"⟩, st)).1 = none
    cases hf : findPod p.key st with
    | none => rw [hf] at h'; cases h'
    | some q0 => rfl
  update_get := by
    intro p st q h
    have h' : (match findPod p.key st with
      | some p => ((Except.ok p : Except StatusError Pod), st)
      | none => (.error ⟨.NotFound, "pod not found"⟩, st)).1 = .ok q := h
    cases hf : findPod p.key st with
    | none => rw [hf] at h'; cases h'
    | some q0 =>
      have hu : (storeClient.Update p st).2 = replacePod p st := by
        show (match findPod p.key st with
          | some _ => ((none : Option StatusError), replacePod p st)
          | none => (some ⟨.NotFound, "pod not found"⟩, st)).2 = replacePod p st
        rw [hf]
      rw [hu]
      show (match findPod p.key (replacePod p st) with
        | some q1 => ((Except.ok q1 : Except StatusError Pod), replacePod p st)
        | none => (.error ⟨.NotFound, "pod not found"⟩, replacePod p st)).1 = .ok p
      rw [findPod_replacePod p q0 st hf]

end Replay

/-! ## The convergence policy -/

/-- C1: the desired-state boolean of `Reconcile` is true exactly when the
annotations hold `liatr.io/add-pod-name-label` with the value `"true"`; an absent
annotation and every other value give false; labels, name, namespace and version
play no part. -/
theorem labelShouldBePresent_exact :
    addPodNameLabelAnnotation = "liatr.io/add-pod-name-label" ∧
    (∀ pod : Pod, labelShouldBePresent pod = true ↔
      pod.Annotations.lookup addPodNameLabelAnnotation = some "true") ∧
    (∀ pod : Pod, pod.Annotations.lookup addPodNameLabelAnnotation = none →
      labelShouldBePresent pod = false) ∧
    (∀ (pod : Pod) (v : String), pod.Annotations.lookup addPodNameLabelAnnotation = some v →
      v ≠ "true" → labelShouldBePresent pod = false) ∧
    (∀ (ns name rv : String) (labels : GoMap) (v : String),
      v ∈ ["True", "1", "", "false", " true"] →
      labelShouldBePresent ⟨ns, name, rv, .entries [( addPodNameLabelAnnotation, v)], labels⟩
        = false) ∧
    (∀ (ann : GoMap) (ns name rv : String) (labels : GoMap) (ns' name' rv' : String)
      (labels' : GoMap),
      labelShouldBePresent ⟨ns, name, rv, ann, labels⟩
        = labelShouldBePresent ⟨ns', name', rv', ann, labels'⟩) := by
  refine ⟨rfl, ?_, ?_, ?_, ?_, ?_⟩
  · intro pod
    unfold labelShouldBePresent GoMap.index
    cases h : pod.Annotations.lookup addPodNameLabelAnnotation with
    | none => simp
    | some v => simp
  · intro pod h
    simp [labelShouldBePresent, GoMap.index, h]
  · intro pod v h hv
    simp [labelShouldBePresent, GoMap.index, h, hv]
  · intro ns name rv labels v hv
    simp only [List.mem_cons, List.mem_singleton, List.not_mem_nil, or_false] at hv
    rcases hv with h | h | h | h | h <;> subst h <;>
      simp [labelShouldBePresent, GoMap.index, GoMap.lookup, findEntry]
  · intro ann ns name rv labels ns' name' rv' labels'
    rfl

/-! ## Reconcile -/

section Contract

variable {σ ε : Type} (E : APIErrors ε) (r : Client σ ε) (req : NamespacedName) (s : σ)

/-- C2: when the fetched snapshot already has desired equal to actual, `Reconcile`
calls `Update` zero times and returns the empty `Result` with a nil error, for
every client, hence whatever `Update` would have answered; the store is left in
the state the fetch left it in. -/
theorem Reconcile_converged_no_write (pod : Pod) (s1 : σ)
    (hget : r.Get req s = (.ok pod, s1))
    (heq : labelShouldBePresent pod = labelIsPresent pod) :
    (Reconcile E r req s).updates = [] ∧
    (Reconcile E r req s).result = ⟨false, 0⟩ ∧
    (Reconcile E r req s).err = none ∧
    (Reconcile E r req s).state = s1 := by
  rw [Reconcile_same E r req s pod s1 hget heq]
  exact ⟨rfl, rfl, rfl, rfl⟩

/-- C5: when the fetch fails with a not-found error, `Reconcile` returns the empty
`Result` (no requeue) with a nil error and calls `Update` zero times. -/
theorem Reconcile_fetch_notFound (err : ε) (s1 : σ)
    (hget : r.Get req s = (.error err, s1)) (hnf : E.IsNotFound err = true) :
    (Reconcile E r req s).result = ⟨false, 0⟩ ∧
    (Reconcile E r req s).err = none ∧
    (Reconcile E r req s).updates = [] ∧
    (Reconcile E r req s).state = s1 := by
  rw [Reconcile_get_notFound E r req s err s1 hget hnf]
  exact ⟨rfl, rfl, rfl, rfl⟩

/-- C6: when desired differs from actual and the commit fails with a
version-conflict error, `Reconcile` returns `Requeue = true` with no delay and a
nil error. -/
theorem Reconcile_commit_conflict (pod : Pod) (s1 s2 : σ) (err : ε)
    (hget : r.Get req s = (.ok pod, s1))
    (hne : labelShouldBePresent pod ≠ labelIsPresent pod)
    (hupd : r.Update (applyLabel pod).1 s1 = (some err, s2))
    (hc : E.IsConflict err = true) :
    (Reconcile E r req s).result = ⟨true, 0⟩ ∧
    (Reconcile E r req s).err = none ∧
    (Reconcile E r req s).updates = [(applyLabel pod).1] := by
  rw [Reconcile_update_conflict E r req s pod s1 s2 err hget hne hupd hc]
  exact ⟨rfl, rfl, rfl⟩

/-- C7: when desired differs from actual and the commit fails with a not-found
error, `Reconcile` returns `Requeue = true` with no delay and a nil error. -/
theorem Reconcile_commit_notFound (pod : Pod) (s1 s2 : σ) (err : ε)
    (hget : r.Get req s = (.ok pod, s1))
    (hne : labelShouldBePresent pod ≠ labelIsPresent pod)
    (hupd : r.Update (applyLabel pod).1 s1 = (some err, s2))
    (hnf : E.IsNotFound err = true) :
    (Reconcile E r req s).result = ⟨true, 0⟩ ∧
    (Reconcile E r req s).err = none ∧
    (Reconcile E r req s).updates = [(applyLabel pod).1] := by
  rw [Reconcile_update_notFound E r req s pod s1 s2 err hget hne hupd hnf]
  exact ⟨rfl, rfl, rfl⟩

end Contract

/-- C2 at scenario C, against a client whose `Update` would fail. -/
theorem Reconcile_converged_no_write_witness :
    (labelShouldBePresent podScenarioC = labelIsPresent podScenarioC) ∧
    (Reconcile statusErrors (fixedClient podScenarioC (some ⟨.InternalError, "down"⟩))
      reqWeb ()).updates = [] ∧
    (Reconcile statusErrors (fixedClient podScenarioC (some ⟨.InternalError, "down"⟩))
      reqWeb ()).result = ⟨false, 0⟩ ∧
    (Reconcile statusErrors (fixedClient podScenarioC (some ⟨.InternalError, "down"⟩))
      reqWeb ()).err = none ∧
    (Reconcile statusErrors (fixedClient podScenarioC (some ⟨.InternalError, "down"⟩))
      reqWeb ()).state = () :=
  ⟨by decide,
    Reconcile_converged_no_write statusErrors
      (fixedClient podScenarioC (some ⟨.InternalError, "down"⟩)) reqWeb () podScenarioC ()
      rfl (by decide)⟩

/-- C5 against the store with no pod in it. -/
theorem Reconcile_fetch_notFound_witness :
    (Reconcile statusErrors storeClient reqWeb []).result = ⟨false, 0⟩ ∧
    (Reconcile statusErrors storeClient reqWeb []).err = none ∧
    (Reconcile statusErrors storeClient reqWeb []).updates = [] ∧
    (Reconcile statusErrors storeClient reqWeb []).state = [] :=
  Reconcile_fetch_notFound statusErrors storeClient reqWeb []
    ⟨.NotFound, "pod not found"⟩ [] rfl rfl

/-- C6 at scenario A, against a client whose `Update` reports a conflict. -/
theorem Reconcile_commit_conflict_witness :
    (labelShouldBePresent podScenarioA ≠ labelIsPresent podScenarioA) ∧
    (Reconcile statusErrors (fixedClient podScenarioA (some ⟨.Conflict, "modified"⟩))
      reqWeb ()).result = ⟨true, 0⟩ ∧
    (Reconcile statusErrors (fixedClient podScenarioA (some ⟨.Conflict, "modified"⟩))
      reqWeb ()).err = none ∧
    (Reconcile statusErrors (fixedClient podScenarioA (some ⟨.Conflict, "modified"⟩))
      reqWeb ()).updates = [(applyLabel podScenarioA).1] :=
  ⟨by decide,
    Reconcile_commit_conflict statusErrors
      (fixedClient podScenarioA (some ⟨.Conflict, "modified"⟩)) reqWeb () podScenarioA () ()
      ⟨.Conflict, "modified"⟩ rfl (by decide) rfl rfl⟩

/-- C7 at scenario B, against a client whose `Update` reports not-found. -/
theorem Reconcile_commit_notFound_witness :
    (labelShouldBePresent podScenarioB ≠ labelIsPresent podScenarioB) ∧
    (Reconcile statusErrors (fixedClient podScenarioB (some ⟨.NotFound, "gone"⟩))
      reqWeb ()).result = ⟨true, 0⟩ ∧
    (Reconcile statusErrors (fixedClient podScenarioB (some ⟨.NotFound, "gone"⟩))
      reqWeb ()).err = none ∧
    (Reconcile statusErrors (fixedClient podScenarioB (some ⟨.NotFound, "gone"⟩))
      reqWeb ()).updates = [(applyLabel podScenarioB).1] :=
  ⟨by decide,
    Reconcile_commit_notFound statusErrors
      (fixedClient podScenarioB (some ⟨.NotFound, "gone"⟩)) reqWeb () podScenarioB () ()
      ⟨.NotFound, "gone"⟩ rfl (by decide) rfl rfl⟩

/-! ## Failure surfacing -/

/-- C8: `Reconcile` returns the error `e` exactly when the fetch failed with `e`
and `e` is not not-found, or the fetch succeeded with desired different from
actual and the `Update` of the mutated pod failed with `e`, neither a conflict nor
not-found. A returned error comes with the empty `Result`; a failed fetch is
followed by no `Update`; not-found on fetch, conflict and not-found on commit give
a nil error. -/
theorem Reconcile_error_iff {σ ε : Type} (E : APIErrors ε) (r : Client σ ε)
    (req : NamespacedName) (s : σ) :
    (∀ e, (Reconcile E r req s).err = some e ↔
      ((r.Get req s).1 = .error e ∧ E.IsNotFound e = false) ∨
      (∃ pod, (r.Get req s).1 = .ok pod ∧
        labelShouldBePresent pod ≠ labelIsPresent pod ∧
        (Reconcile E r req s).updates = [(applyLabel pod).1] ∧
        (r.Update (applyLabel pod).1 (r.Get req s).2).1 = some e ∧
        E.IsConflict e = false ∧ E.IsNotFound e = false)) ∧
    ((Reconcile E r req s).err ≠ none → (Reconcile E r req s).result = ⟨false, 0⟩) ∧
    (∀ e, (r.Get req s).1 = .error e → (Reconcile E r req s).updates = []) ∧
    (∀ e, (r.Get req s).1 = .error e → E.IsNotFound e = true →
      (Reconcile E r req s).err = none) ∧
    (∀ pod e, (r.Get req s).1 = .ok pod →
      (r.Update (applyLabel pod).1 (r.Get req s).2).1 = some e →
      E.IsConflict e = true ∨ E.IsNotFound e = true →
      (Reconcile E r req s).err = none) := by
  rcases hget : r.Get req s with ⟨res, s1⟩
  cases res with
  | error err =>
    by_cases hnf : E.IsNotFound err = true
    · rw [Reconcile_get_notFound E r req s err s1 hget hnf]
      refine ⟨?_, ?_, ?_, ?_, ?_⟩
      · intro e
        constructor
        · intro h
          cases h
        · rintro (⟨h1, h2⟩ | ⟨pod, h1, _⟩)
          · cases h1
            rw [hnf] at h2
            cases h2
          · cases h1
      · intro h
        exact absurd rfl h
      · intro _ _
        rfl
      · intro _ _ _
        rfl
      · intro pod e h
        cases h
    · have hnf' : E.IsNotFound err = false := by simpa using hnf
      rw [Reconcile_get_failed E r req s err s1 hget hnf']
      refine ⟨?_, ?_, ?_, ?_, ?_⟩
      · intro e
        constructor
        · intro h
          cases h
          exact Or.inl ⟨rfl, hnf'⟩
        · rintro (⟨h1, _⟩ | ⟨pod, h1, _⟩)
          · cases h1
            rfl
          · cases h1
      · intro _
        rfl
      · intro _ _
        rfl
      · intro e h1 h2
        cases h1
        exact absurd h2 hnf
      · intro pod e h
        cases h
  | ok pod =>
    by_cases heq : labelShouldBePresent pod = labelIsPresent pod
    · rw [Reconcile_same E r req s pod s1 hget heq]
      refine ⟨?_, ?_, ?_, ?_, ?_⟩
      · intro e
        constructor
        · intro h
          cases h
        · rintro (⟨h1, _⟩ | ⟨pod', h1, h2, _⟩)
          · cases h1
          · cases h1
            exact absurd heq h2
      · intro h
        exact absurd rfl h
      · intro e h
        cases h
      · intro e h
        cases h
      · intro _ _ _ _ _
        rfl
    · rcases hupd : r.Update (applyLabel pod).1 s1 with ⟨ans, s2⟩
      cases ans with
      | none =>
        rw [Reconcile_update_ok E r req s pod s1 s2 hget heq hupd]
        refine ⟨?_, ?_, ?_, ?_, ?_⟩
        · intro e
          constructor
          · intro h
            cases h
          · rintro (⟨h1, _⟩ | ⟨pod', h1, _, _, h4, _⟩)
            · cases h1
            · cases h1
              rw [hupd] at h4
              cases h4
        · intro h
          exact absurd rfl h
        · intro e h
          cases h
        · intro e h
          cases h
        · intro _ _ _ _ _
          rfl
      | some err =>
        by_cases hc : E.IsConflict err = true
        · rw [Reconcile_update_conflict E r req s pod s1 s2 err hget heq hupd hc]
          refine ⟨?_, ?_, ?_, ?_, ?_⟩
          · intro e
            constructor
            · intro h
              cases h
            · rintro (⟨h1, _⟩ | ⟨pod', h1, _, _, h4, h5, _⟩)
              · cases h1
              · cases h1
                rw [hupd] at h4
                cases h4
                rw [hc] at h5
                cases h5
          · intro h
            exact absurd rfl h
          · intro e h
            cases h
          · intro e h
            cases h
          · intro _ _ _ _ _
            rfl
        · by_cases hnf : E.IsNotFound err = true
          · rw [Reconcile_update_notFound E r req s pod s1 s2 err hget heq hupd hnf]
            refine ⟨?_, ?_, ?_, ?_, ?_⟩
            · intro e
              constructor
              · intro h
                cases h
              · rintro (⟨h1, _⟩ | ⟨pod', h1, _, _, h4, _, h6⟩)
                · cases h1
                · cases h1
                  rw [hupd] at h4
                  cases h4
                  rw [hnf] at h6
                  cases h6
            · intro h
              exact absurd rfl h
            · intro e h
              cases h
            · intro e h
              cases h
            · intro _ _ _ _ _
              rfl
          · have hc' : E.IsConflict err = false := by simpa using hc
            have hnf' : E.IsNotFound err = false := by simpa using hnf
            rw [Reconcile_update_failed E r req s pod s1 s2 err hget heq hupd hc' hnf']
            refine ⟨?_, ?_, ?_, ?_, ?_⟩
            · intro e
              constructor
              · intro h
                cases h
                exact Or.inr ⟨pod, rfl, heq, rfl, by rw [hupd], hc', hnf'⟩
              · rintro (⟨h1, _⟩ | ⟨pod', h1, _, _, h4, _, _⟩)
                · cases h1
                · cases h1
                  rw [hupd] at h4
                  cases h4
                  rfl
            · intro _
              rfl
            · intro e h
              cases h
            · intro e h
              cases h
            · intro pod' e h1 h2 h3
              cases h1
              rw [hupd] at h2
              cases h2
              rcases h3 with h3 | h3
              · exact absurd h3 hc
              · exact absurd h3 hnf

/-! ## The two mutation paths -/

/-- C9: with desired true and actual false, the pod submitted to `Update` is the
fetched pod with its label map (the empty map when it was nil) assigned the name
under `liatr.io/pod-name`: that key reads the name, every other key reads what it
read before, and annotations, name, namespace and version token are those fetched. -/
theorem Reconcile_add_path {σ ε : Type} (E : APIErrors ε) (r : Client σ ε)
    (req : NamespacedName) (s : σ) (pod : Pod) (s1 : σ)
    (hget : r.Get req s = (.ok pod, s1))
    (hdes : labelShouldBePresent pod = true) (hact : labelIsPresent pod = false) :
    ∃ p : Pod, (Reconcile E r req s).updates = [p] ∧
      podNameLabel = "liatr.io/pod-name" ∧
      p = ⟨pod.Namespace, pod.Name, pod.ResourceVersion, pod.Annotations,
        .entries (assignEntry (match pod.Labels with | .nil => [] | .entries l => l)
          podNameLabel pod.Name)⟩ ∧
      p.Labels.lookup podNameLabel = some pod.Name ∧
      (∀ k, k ≠ podNameLabel → p.Labels.lookup k = pod.Labels.lookup k) ∧
      p.Annotations = pod.Annotations ∧ p.Name = pod.Name ∧
      p.Namespace = pod.Namespace ∧ p.ResourceVersion = pod.ResourceVersion := by
  have hne : labelShouldBePresent pod ≠ labelIsPresent pod := by
    rw [hdes, hact]; decide
  have happ : (applyLabel pod).1 = addLabel pod := by
    simp [applyLabel, hdes]
  refine ⟨addLabel pod, ?_, rfl, ?_, ?_, ?_, rfl, rfl, rfl, rfl⟩
  · rw [Reconcile_updates_of_ne E r req s pod s1 hget hne, happ]
  · cases hl : pod.Labels <;> simp [addLabel, hl, GoMap.make]
  · exact lookup_assign_self _ _ _
  · intro k hk
    show (GoMap.entries (assignEntry _ podNameLabel pod.Name)).lookup k = _
    rw [lookup_assign_ne _ _ _ _ hk]
    cases pod.Labels <;> rfl

/-- C10: with actual true and desired false, the pod submitted to `Update` is the
fetched pod with `liatr.io/pod-name` deleted from its label map: the key is absent
afterwards, every other key reads what it read before, and annotations, name,
namespace and version token are those fetched. -/
theorem Reconcile_remove_path {σ ε : Type} (E : APIErrors ε) (r : Client σ ε)
    (req : NamespacedName) (s : σ) (pod : Pod) (s1 : σ)
    (hget : r.Get req s = (.ok pod, s1))
    (hact : labelIsPresent pod = true) (hdes : labelShouldBePresent pod = false) :
    ∃ p : Pod, (Reconcile E r req s).updates = [p] ∧
      podNameLabel = "liatr.io/pod-name" ∧
      p = ⟨pod.Namespace, pod.Name, pod.ResourceVersion, pod.Annotations,
        pod.Labels.delete podNameLabel⟩ ∧
      p.Labels.lookup podNameLabel = none ∧
      (∀ k, k ≠ podNameLabel → p.Labels.lookup k = pod.Labels.lookup k) ∧
      p.Annotations = pod.Annotations ∧ p.Name = pod.Name ∧
      p.Namespace = pod.Namespace ∧ p.ResourceVersion = pod.ResourceVersion := by
  have hne : labelShouldBePresent pod ≠ labelIsPresent pod := by
    rw [hdes, hact]; decide
  have happ : (applyLabel pod).1 = removeLabel pod := by
    simp [applyLabel, hdes]
  refine ⟨removeLabel pod, ?_, rfl, rfl, ?_, ?_, rfl, rfl, rfl, rfl⟩
  · rw [Reconcile_updates_of_ne E r req s pod s1 hget hne, happ]
  · exact lookup_delete_self _ _
  · intro k hk
    exact lookup_delete_ne _ _ _ hk

/-- C9 at scenario A: no label map, the pod submitted carries the label. -/
theorem Reconcile_add_path_witness :
    (labelShouldBePresent podScenarioA = true ∧ labelIsPresent podScenarioA = false) ∧
    ∃ p : Pod, (Reconcile statusErrors (fixedClient podScenarioA none) reqWeb ()).updates = [p] ∧
      podNameLabel = "liatr.io/pod-name" ∧
      p = ⟨podScenarioA.Namespace, podScenarioA.Name, podScenarioA.ResourceVersion,
        podScenarioA.Annotations,
        .entries (assignEntry (match podScenarioA.Labels with | .nil => [] | .entries l => l)
          podNameLabel podScenarioA.Name)⟩ ∧
      p.Labels.lookup podNameLabel = some podScenarioA.Name ∧
      (∀ k, k ≠ podNameLabel → p.Labels.lookup k = podScenarioA.Labels.lookup k) ∧
      p.Annotations = podScenarioA.Annotations ∧ p.Name = podScenarioA.Name ∧
      p.Namespace = podScenarioA.Namespace ∧
      p.ResourceVersion = podScenarioA.ResourceVersion :=
  ⟨⟨by decide, by decide⟩,
    Reconcile_add_path statusErrors (fixedClient podScenarioA none) reqWeb () podScenarioA ()
      rfl (by decide) (by decide)⟩

/-- C10 at scenario B: the label is deleted, the label `app` stays. -/
theorem Reconcile_remove_path_witness :
    (labelIsPresent podScenarioB = true ∧ labelShouldBePresent podScenarioB = false) ∧
    ∃ p : Pod, (Reconcile statusErrors (fixedClient podScenarioB none) reqWeb ()).updates = [p] ∧
      podNameLabel = "liatr.io/pod-name" ∧
      p = ⟨podScenarioB.Namespace, podScenarioB.Name, podScenarioB.ResourceVersion,
        podScenarioB.Annotations, podScenarioB.Labels.delete podNameLabel⟩ ∧
      p.Labels.lookup podNameLabel = none ∧
      (∀ k, k ≠ podNameLabel → p.Labels.lookup k = podScenarioB.Labels.lookup k) ∧
      p.Annotations = podScenarioB.Annotations ∧ p.Name = podScenarioB.Name ∧
      p.Namespace = podScenarioB.Namespace ∧
      p.ResourceVersion = podScenarioB.ResourceVersion :=
  ⟨⟨by decide, by decide⟩,
    Reconcile_remove_path statusErrors (fixedClient podScenarioB none) reqWeb () podScenarioB ()
      rfl (by decide) (by decide)⟩

/-! ## Convergence and replay

The API server never serves an object with an empty `metadata.name`, so every pod
a `Get` returns has `Name ≠ ""`. The statements below carry the weaker condition
they need, `Name ≠ "" ∨ labelShouldBePresent = true`, and only where a write is
made. -/

/-- C3: when the fetched snapshot has desired different from actual, `Reconcile`
calls `Update` exactly once; the pod it submits has the desired state of the
fetched one and, for a non-empty name (as every served pod has) or a desired
label, has `labelIsPresent` equal to the desired state; when that `Update`
succeeds the outcome is the empty `Result` with a nil error. Hence whenever
`Reconcile` returns the empty `Result` with a nil error, the snapshot it last read
or wrote has `labelIsPresent` equal to the desired state: always when no write was
made, and for a non-empty name or a desired label when one was. -/
theorem Reconcile_converges {σ ε : Type} (E : APIErrors ε) (r : Client σ ε)
    (req : NamespacedName) (s : σ) :
    (∀ (pod : Pod) (s1 : σ), r.Get req s = (.ok pod, s1) →
      labelShouldBePresent pod ≠ labelIsPresent pod →
      ∃ p : Pod, (Reconcile E r req s).updates = [p] ∧
        labelShouldBePresent p = labelShouldBePresent pod ∧
        (pod.Name ≠ "" ∨ labelShouldBePresent pod = true →
          labelIsPresent p = labelShouldBePresent p) ∧
        (∀ s2, r.Update p s1 = (none, s2) →
          (Reconcile E r req s).result = ⟨false, 0⟩ ∧ (Reconcile E r req s).err = none ∧
          (Reconcile E r req s).state = s2 ∧ (Reconcile E r req s).lastSnapshot = some p)) ∧
    (∀ p : Pod, (Reconcile E r req s).result = ⟨false, 0⟩ → (Reconcile E r req s).err = none →
      (Reconcile E r req s).lastSnapshot = some p →
      (Reconcile E r req s).updates = [] ∨ p.Name ≠ "" ∨ labelShouldBePresent p = true →
      labelIsPresent p = labelShouldBePresent p) := by
  constructor
  · intro pod s1 hget hne
    refine ⟨(applyLabel pod).1, Reconcile_updates_of_ne E r req s pod s1 hget hne,
      labelShouldBePresent_applyLabel pod, ?_, ?_⟩
    · intro h
      exact (applyLabel_converged pod h).symm
    · intro s2 hupd
      rw [Reconcile_update_ok E r req s pod s1 s2 hget hne hupd]
      exact ⟨rfl, rfl, rfl, rfl⟩
  · intro p hres herr hlast hp
    rcases hget : r.Get req s with ⟨res, s1⟩
    cases res with
    | error err =>
      by_cases hnf : E.IsNotFound err = true
      · rw [Reconcile_get_notFound E r req s err s1 hget hnf] at hlast
        cases hlast
      · have hnf' : E.IsNotFound err = false := by simpa using hnf
        rw [Reconcile_get_failed E r req s err s1 hget hnf'] at herr
        cases herr
    | ok pod =>
      by_cases heq : labelShouldBePresent pod = labelIsPresent pod
      · rw [Reconcile_same E r req s pod s1 hget heq] at hlast
        cases hlast
        exact heq.symm
      · have hups := Reconcile_updates_of_ne E r req s pod s1 hget heq
        rcases hupd : r.Update (applyLabel pod).1 s1 with ⟨ans, s2⟩
        cases ans with
        | none =>
          rw [Reconcile_update_ok E r req s pod s1 s2 hget heq hupd] at hlast
          have hp' : p = (applyLabel pod).1 := by
            have : some (applyLabel pod).1 = some p := hlast
            cases this
            rfl
          subst hp'
          rw [hups, applyLabel_name, labelShouldBePresent_applyLabel] at hp
          have hg : pod.Name ≠ "" ∨ labelShouldBePresent pod = true := by
            rcases hp with h | h
            · cases h
            · exact h
          exact (applyLabel_converged pod hg).symm
        | some err =>
          by_cases hc : E.IsConflict err = true
          · rw [Reconcile_update_conflict E r req s pod s1 s2 err hget heq hupd hc] at hres
            cases hres
          · by_cases hnf : E.IsNotFound err = true
            · rw [Reconcile_update_notFound E r req s pod s1 s2 err hget heq hupd hnf] at hres
              cases hres
            · have hc' : E.IsConflict err = false := by simpa using hc
              have hnf' : E.IsNotFound err = false := by simpa using hnf
              rw [Reconcile_update_failed E r req s pod s1 s2 err hget heq hupd hc' hnf']
                at herr
              cases herr

/-- C3 at scenario A against the store holding that one pod: one `Update`
submitting a converged pod, and the returned verdict agrees with the snapshot last
written. -/
theorem Reconcile_converges_witness :
    (∃ p : Pod, (Reconcile statusErrors storeClient reqWeb [podScenarioA]).updates = [p] ∧
      labelShouldBePresent p = labelShouldBePresent podScenarioA ∧
      (podScenarioA.Name ≠ "" ∨ labelShouldBePresent podScenarioA = true →
        labelIsPresent p = labelShouldBePresent p) ∧
      (∀ s2, storeClient.Update p [podScenarioA] = (none, s2) →
        (Reconcile statusErrors storeClient reqWeb [podScenarioA]).result = ⟨false, 0⟩ ∧
        (Reconcile statusErrors storeClient reqWeb [podScenarioA]).err = none ∧
        (Reconcile statusErrors storeClient reqWeb [podScenarioA]).state = s2 ∧
        (Reconcile statusErrors storeClient reqWeb [podScenarioA]).lastSnapshot = some p)) ∧
    (Reconcile statusErrors storeClient reqWeb [podScenarioA]).lastSnapshot
      = some (addLabel podScenarioA) ∧
    labelIsPresent (addLabel podScenarioA) = labelShouldBePresent (addLabel podScenarioA) :=
  ⟨(Reconcile_converges statusErrors storeClient reqWeb [podScenarioA]).1 podScenarioA
      [podScenarioA] rfl (by decide),
    by decide,
    (Reconcile_converges statusErrors storeClient reqWeb [podScenarioA]).2
      (addLabel podScenarioA) (by decide) (by decide) (by decide)
      (Or.inr (Or.inl (by decide)))⟩

/-- C4: when `Reconcile` fetched a pod and submitted `p` in one `Update` that
succeeded, then for a non-empty name (as every served pod has) or a desired label,
a `Reconcile` whose fetch returns `p` calls `Update` zero times and returns the
empty `Result` with a nil error, from any store state, hence on every replay.
Against a replace store, any number of consecutive reconciliations of one request
makes at most one `Update`, provided the pod first fetched is already converged,
or has a non-empty name, or has the label desired. -/
theorem Reconcile_replay_noop {σ ε : Type} (E : APIErrors ε) (r : Client σ ε)
    (req : NamespacedName) :
    (∀ (s s1 : σ) (pod p : Pod), r.Get req s = (.ok pod, s1) →
      (Reconcile E r req s).updates = [p] → (r.Update p s1).1 = none →
      pod.Name ≠ "" ∨ labelShouldBePresent pod = true →
      ∀ t t1 : σ, r.Get req t = (.ok p, t1) →
        (Reconcile E r req t).updates = [] ∧ (Reconcile E r req t).result = ⟨false, 0⟩ ∧
        (Reconcile E r req t).err = none ∧ (Reconcile E r req t).state = t1) ∧
    (ReplaceStore r → ∀ (n : Nat) (s : σ),
      (∀ pod, (r.Get req s).1 = .ok pod →
        labelShouldBePresent pod = labelIsPresent pod ∨ pod.Name ≠ "" ∨
          labelShouldBePresent pod = true) →
      (reconcileN E r req n s).1.length ≤ 1) := by
  constructor
  · intro s s1 pod p hget hup _ hname t t1 hget2
    by_cases heq : labelShouldBePresent pod = labelIsPresent pod
    · rw [Reconcile_same E r req s pod s1 hget heq] at hup
      cases hup
    · rw [Reconcile_updates_of_ne E r req s pod s1 hget heq] at hup
      have hp : (applyLabel pod).1 = p := by
        cases hup
        rfl
      subst hp
      rw [Reconcile_same E r req t _ t1 hget2 (applyLabel_converged pod hname)]
      exact ⟨rfl, rfl, rfl, rfl⟩
  · intro R n s hname
    exact reconcileN_length_le_one E r req R n s hname

/-- C4 at scenario A: the pod submitted by the first reconciliation, fetched
again, needs no write, and three reconciliations against the replace store holding
that pod make at most one write. -/
theorem Reconcile_replay_noop_witness :
    ((Reconcile statusErrors storeClient reqWeb [addLabel podScenarioA]).updates = [] ∧
      (Reconcile statusErrors storeClient reqWeb [addLabel podScenarioA]).result = ⟨false, 0⟩ ∧
      (Reconcile statusErrors storeClient reqWeb [addLabel podScenarioA]).err = none ∧
      (Reconcile statusErrors storeClient reqWeb [addLabel podScenarioA]).state
        = [addLabel podScenarioA]) ∧
    ReplaceStore storeClient ∧ podScenarioA.Name ≠ "" ∧
    (reconcileN statusErrors storeClient reqWeb 3 [podScenarioA]).1.length ≤ 1 :=
  ⟨(Reconcile_replay_noop statusErrors storeClient reqWeb).1 [podScenarioA] [podScenarioA]
      podScenarioA (addLabel podScenarioA) rfl (by decide) rfl (Or.inl (by decide))
      [addLabel podScenarioA] [addLabel podScenarioA] rfl,
    storeClient_replaceStore, by decide,
    (Reconcile_replay_noop statusErrors storeClient reqWeb).2 storeClient_replaceStore
      3 [podScenarioA]
      (fun pod h =>
        have h1 : Except.ok podScenarioA = (Except.ok pod : Except StatusError Pod) := h
        have h2 : podScenarioA = pod := Except.ok.inj h1
        h2 ▸ Or.inr (Or.inl (by decide)))⟩

end LabelOperator
